import Mathlib

/-!
Shallow embedding of the Stromnetz Graz API client
(repository file `src/sngraz/sngraz.py`) together with proofs about its
transport retry policy, token handling, and the meter data-fetch
algorithm.  Python dictionaries are modelled as association lists with
overwrite-on-insert, `datetime` values as explicit calendar structures,
and the network as oracle functions supplied to each operation.
-/

namespace SNGraz

/-- Outcome of one HTTP POST attempt as seen by `StromNetzGraz._query`:
a response carrying a status code and parsed JSON body, a
connection-level `aiohttp.ClientError`, or an `asyncio.TimeoutError`. -/
inductive Attempt (β : Type) where
  | ok (status : Nat) (body : β)
  | connError
  | timeout
deriving DecidableEq

/-- Result of `StromNetzGraz._query`: either a returned value (possibly
`None`) or a raised exception. -/
inductive QueryOutcome (β : Type) where
  | result (r : Option β)
  | raiseConn
  | raiseTimeout
deriving DecidableEq

/-- `StromNetzGraz._query(path, payload, retry)`.  The transport is
modelled as a function from the attempt index to that attempt's outcome
(the path/payload are fixed for the whole call, so they are dropped).
Returns the outcome paired with the total number of attempts made.
Source lines 100-115: non-200 status returns `None`; `ClientError`
recurses with `retry - 1` while `retry > 0`, then re-raises;
`TimeoutError` re-raises at once. -/
def queryAux {β : Type} (transport : Nat → Attempt β) (retry attempt : Nat) :
    QueryOutcome β × Nat :=
  match transport attempt with
  | .ok status body =>
    if status ≠ 200 then (.result none, attempt + 1)
    else (.result (some body), attempt + 1)
  | .connError =>
    match retry with
    | r + 1 => queryAux transport r (attempt + 1)
    | 0 => (.raiseConn, attempt + 1)
  | .timeout => (.raiseTimeout, attempt + 1)

/-- `StromNetzGraz._query` at its default retry budget of 2. -/
def rawQuery {β : Type} (transport : Nat → Attempt β) : QueryOutcome β × Nat :=
  queryAux transport 2 0

/-- A bearer token as far as the (external) PyJWT decoder is concerned:
whether it decodes structurally, and its expiry claim. -/
structure Token where
  wellFormed : Bool
  exp : Int
deriving DecidableEq

/-- Model of the external library call
`jwt.decode(tok, options=...)` with signature verification disabled and
expiry verification enabled: it succeeds iff the token decodes
structurally and its expiry claim lies in the future. -/
def decodeNoVerify (now : Int) (t : Token) : Bool :=
  t.wellFormed && decide (now < t.exp)

/-- The token-holding part of a `StromNetzGraz` instance (`self._jwt`). -/
structure SessionState where
  jwt : Option Token
deriving DecidableEq

/-- The `StromNetzGraz.ok` property (source lines 122-135): `False` when
no token is held; otherwise decode without signature verification but
with expiry verification, clearing the token and returning `False` on
any decode failure.  Returns the boolean together with the state after
the call. -/
def ok (now : Int) (s : SessionState) : Bool × SessionState :=
  match s.jwt with
  | none => (false, s)
  | some t =>
    if decodeNoVerify now t then (true, s)
    else (false, { s with jwt := none })

/-- Truthiness test for `resp.get("error") != ""` guarded by
`"error" in resp`. -/
def errorNonEmpty : Option String → Bool
  | none => false
  | some e => decide (e ≠ "")

/-- The `login` response fields inspected by
`StromNetzGraz.authenticate`, each `Option` to model key absence. -/
structure LoginResponse where
  error : Option String
  success : Option Bool
  token : Option Token
deriving DecidableEq

/-- The exceptions `authenticate` can raise: `InvalidLogin(err)`,
`ValueError("no token returned")`, `Exception("login failed")`. -/
inductive AuthError where
  | invalidLogin (msg : Option String)
  | noToken
  | loginFailed
deriving DecidableEq

/-- `StromNetzGraz.authenticate` (source lines 138-156), with the
`_query` result of the login request supplied as `resp` (`none` models a
`None` result, upon which the code returns `False`). -/
def authenticate (now : Int) (resp : Option LoginResponse) (s : SessionState) :
    Except AuthError (Bool × SessionState) :=
  match resp with
  | none => .ok (false, s)
  | some r =>
    if errorNonEmpty r.error then .error (.invalidLogin r.error)
    else if r.success = some false ∨ r.token = none then .error .noToken
    else
      match ok now { jwt := r.token } with
      | (true, s2) => .ok (true, s2)
      | (false, _) => .error .loginFailed

/-- C1: `_query` retries a connection-level error immediately, up to 2
extra attempts, and raises once the budget is exhausted; a timeout is
raised immediately after exactly one attempt; a non-200 HTTP status
returns `None` after one attempt, without retrying and without
raising. -/
theorem C1_query_retry_policy {β : Type} (transport : Nat → Attempt β) :
    (transport 0 = .timeout → rawQuery transport = (.raiseTimeout, 1)) ∧
    (∀ s b, transport 0 = .ok s b → s ≠ 200 → rawQuery transport = (.result none, 1)) ∧
    (∀ b, transport 0 = .connError → transport 1 = .ok 200 b →
      rawQuery transport = (.result (some b), 2)) ∧
    (∀ b, transport 0 = .connError → transport 1 = .connError →
      transport 2 = .ok 200 b → rawQuery transport = (.result (some b), 3)) ∧
    (transport 0 = .connError → transport 1 = .connError → transport 2 = .connError →
      rawQuery transport = (.raiseConn, 3)) := by
  refine ⟨?_, ?_, ?_, ?_, ?_⟩
  · intro h0
    rw [rawQuery, queryAux, h0]
  · intro s b h0 hs
    rw [rawQuery, queryAux, h0]
    simp [hs]
  · intro b h0 h1
    rw [rawQuery, queryAux, h0]
    rw [queryAux, h1]
    simp
  · intro b h0 h1 h2
    rw [rawQuery, queryAux, h0]
    rw [queryAux, h1]
    rw [queryAux, h2]
    simp
  · intro h0 h1 h2
    rw [rawQuery, queryAux, h0]
    rw [queryAux, h1]
    rw [queryAux, h2]

/-- A transport that fails with a connection error on attempts 0 and 1
and succeeds on attempt 2. -/
def twoFailTransport : Nat → Attempt Nat :=
  fun i => if i < 2 then .connError else .ok 200 7

/-- A transport that always fails with a connection error. -/
def allFailTransport : Nat → Attempt Nat :=
  fun _ => .connError

/-- A transport that times out on the first attempt. -/
def timeoutTransport : Nat → Attempt Nat :=
  fun _ => .timeout

/-- A transport that answers with HTTP status 500 on the first attempt. -/
def badStatusTransport : Nat → Attempt Nat :=
  fun _ => .ok 500 7

theorem C1_query_retry_policy_witness :
    rawQuery timeoutTransport = (.raiseTimeout, 1) ∧
    rawQuery badStatusTransport = (.result none, 1) ∧
    rawQuery twoFailTransport = (.result (some 7), 3) ∧
    rawQuery allFailTransport = (.raiseConn, 3) := by
  refine ⟨?_, ?_, ?_, ?_⟩
  · exact (C1_query_retry_policy timeoutTransport).1 rfl
  · exact (C1_query_retry_policy badStatusTransport).2.1 500 7 rfl (by decide)
  · exact (C1_query_retry_policy twoFailTransport).2.2.2.1 7 rfl rfl rfl
  · exact (C1_query_retry_policy allFailTransport).2.2.2.2 rfl rfl rfl

/-- C2: the `ok` check returns `false` when no token is held; with a
token held it returns `true` and changes no state when the decode
(signature unverified, expiry verified) succeeds; on any decode failure
it clears the token and returns `false`; in particular every token whose
expiry claim is in the past yields `false` with the token cleared. -/
theorem C2_token_validity (now : Int) :
    (ok now ⟨none⟩ = (false, ⟨none⟩)) ∧
    (∀ t : Token, decodeNoVerify now t = false → ok now ⟨some t⟩ = (false, ⟨none⟩)) ∧
    (∀ t : Token, decodeNoVerify now t = true → ok now ⟨some t⟩ = (true, ⟨some t⟩)) ∧
    (∀ t : Token, t.exp < now → ok now ⟨some t⟩ = (false, ⟨none⟩)) := by
  refine ⟨rfl, ?_, ?_, ?_⟩
  · intro t h
    simp [ok, h]
  · intro t h
    simp [ok, h]
  · intro t h
    have hexp : ¬ (now < t.exp) := by omega
    simp [ok, decodeNoVerify, hexp]

theorem C2_token_validity_witness :
    ok 100 ⟨some ⟨true, 50⟩⟩ = (false, ⟨none⟩) ∧
    ok 100 ⟨some ⟨true, 200⟩⟩ = (true, ⟨some ⟨true, 200⟩⟩) ∧
    ok 100 ⟨some ⟨false, 200⟩⟩ = (false, ⟨none⟩) := by
  refine ⟨?_, ?_, ?_⟩
  · exact (C2_token_validity 100).2.2.2 ⟨true, 50⟩ (by decide)
  · exact (C2_token_validity 100).2.2.1 ⟨true, 200⟩ (by decide)
  · exact (C2_token_validity 100).2.1 ⟨false, 200⟩ (by decide)

/-- C6: `authenticate` raises `InvalidLogin` on a non-empty error field,
raises the no-token `ValueError` when the response reports non-success
or carries no token, otherwise stores the token, re-checks validity,
raises the login-failed error when the freshly stored token is invalid,
and returns `True` on success. -/
theorem C6_authenticate (now : Int) (s : SessionState) (r : LoginResponse) :
    (errorNonEmpty r.error = true →
      authenticate now (some r) s = .error (.invalidLogin r.error)) ∧
    (errorNonEmpty r.error = false → (r.success = some false ∨ r.token = none) →
      authenticate now (some r) s = .error .noToken) ∧
    (∀ t : Token, errorNonEmpty r.error = false →
      ¬(r.success = some false ∨ r.token = none) → r.token = some t →
      decodeNoVerify now t = true →
      authenticate now (some r) s = .ok (true, ⟨some t⟩)) ∧
    (∀ t : Token, errorNonEmpty r.error = false →
      ¬(r.success = some false ∨ r.token = none) → r.token = some t →
      decodeNoVerify now t = false →
      authenticate now (some r) s = .error .loginFailed) := by
  refine ⟨?_, ?_, ?_, ?_⟩
  · intro h
    simp [authenticate, h]
  · intro h hbad
    simp [authenticate, h, hbad]
  · intro t herr hok htok hdec
    have hsucc : ¬ r.success = some false := fun h => hok (Or.inl h)
    simp [authenticate, herr, hok, htok, ok, hdec, hsucc]
  · intro t herr hok htok hdec
    have hsucc : ¬ r.success = some false := fun h => hok (Or.inl h)
    simp [authenticate, herr, hok, htok, ok, hdec, hsucc]

theorem C6_authenticate_witness :
    authenticate 0 (some ⟨some "bad password", none, none⟩) ⟨none⟩
      = .error (.invalidLogin (some "bad password")) ∧
    authenticate 0 (some ⟨some "", some false, some ⟨true, 9⟩⟩) ⟨none⟩
      = .error .noToken ∧
    authenticate 0 (some ⟨none, some true, some ⟨true, 9⟩⟩) ⟨none⟩
      = .ok (true, ⟨some ⟨true, 9⟩⟩) ∧
    authenticate 0 (some ⟨none, some true, some ⟨false, 9⟩⟩) ⟨none⟩
      = .error .loginFailed := by
  refine ⟨?_, ?_, ?_, ?_⟩
  · exact (C6_authenticate 0 ⟨none⟩ _).1 (by decide)
  · exact (C6_authenticate 0 ⟨none⟩ _).2.1 (by decide) (by simp)
  · exact (C6_authenticate 0 ⟨none⟩ _).2.2.1 ⟨true, 9⟩ (by decide) (by simp) rfl (by decide)
  · exact (C6_authenticate 0 ⟨none⟩ _).2.2.2 ⟨false, 9⟩ (by decide) (by simp) rfl (by decide)

/-- Association-list model of a Python `dict`: assignment overwrites an
existing key in place and otherwise appends. -/
def dictInsert {κ α : Type} [DecidableEq κ] (m : List (κ × α)) (k : κ) (v : α) :
    List (κ × α) :=
  if m.any (fun p => decide (p.1 = k)) then
    m.map (fun p => if p.1 = k then (k, v) else p)
  else m ++ [(k, v)]

/-- `k in d` for the dict model. -/
def hasKey {κ α : Type} [DecidableEq κ] (m : List (κ × α)) (k : κ) : Bool :=
  m.any (fun p => decide (p.1 = k))

/-- `d.get(k)` for the dict model. -/
def dictGet {κ α : Type} [DecidableEq κ] (m : List (κ × α)) (k : κ) : Option α :=
  (m.find? (fun p => decide (p.1 = k))).map (fun p => p.2)

/-- A Python `datetime.datetime` value: calendar fields at millisecond
precision plus a fixed-offset time zone in minutes. -/
structure DateTime where
  year : Int
  month : Nat
  day : Nat
  hour : Nat
  minute : Nat
  second : Nat
  millisecond : Nat
  tzMinutes : Int
deriving DecidableEq

/-- Day count since 1970-01-01 of a proleptic-Gregorian calendar date
(Hinnant's days-from-civil algorithm). -/
def daysFromCivil (y : Int) (m d : Nat) : Int :=
  let y2 : Int := if m ≤ 2 then y - 1 else y
  let era : Int := Int.fdiv y2 400
  let yoe : Nat := (y2 - era * 400).toNat
  let doy : Nat := (153 * (if 2 < m then m - 3 else m + 9) + 2) / 5 + d - 1
  let doe : Nat := yoe * 365 + yoe / 4 - yoe / 100 + doy
  era * 146097 + (doe : Int) - 719468

/-- Calendar date of a day count since 1970-01-01 (civil-from-days). -/
def civilFromDays (z0 : Int) : Int × Nat × Nat :=
  let z : Int := z0 + 719468
  let era : Int := Int.fdiv z 146097
  let doe : Nat := (z - era * 146097).toNat
  let yoe : Nat := (doe - doe / 1460 + doe / 36524 - doe / 146096) / 365
  let y : Int := (yoe : Int) + era * 400
  let doy : Nat := doe - (365 * yoe + yoe / 4 - yoe / 100)
  let mp : Nat := (5 * doy + 2) / 153
  let d : Nat := doy - (153 * mp + 2) / 5 + 1
  let m : Nat := if mp < 10 then mp + 3 else mp - 9
  (if m ≤ 2 then y + 1 else y, m, d)

/-- `t + datetime.timedelta(days=n)`: day-based naive arithmetic on the
calendar fields; time of day and tzinfo are unchanged. -/
def addDays (t : DateTime) (n : Int) : DateTime :=
  match civilFromDays (daysFromCivil t.year t.month t.day + n) with
  | (y, m, d) => { t with year := y, month := m, day := d }

/-- Absolute instant of an aware datetime in milliseconds since the
epoch; Python compares aware datetimes by this instant. -/
def toEpochMs (t : DateTime) : Int :=
  daysFromCivil t.year t.month t.day * 86400000
    + (t.hour : Int) * 3600000 + (t.minute : Int) * 60000
    + (t.second : Int) * 1000 + (t.millisecond : Int)
    - t.tzMinutes * 60000

/-- `a < b` on aware datetimes. -/
def dtLt (a b : DateTime) : Bool :=
  decide (toEpochMs a < toEpochMs b)

def pad2 (n : Nat) : String :=
  if n < 10 then "0" ++ toString n else toString n

def pad3 (n : Nat) : String :=
  if n < 10 then "00" ++ toString n
  else if n < 100 then "0" ++ toString n
  else toString n

def pad4 (n : Nat) : String :=
  if n < 10 then "000" ++ toString n
  else if n < 100 then "00" ++ toString n
  else if n < 1000 then "0" ++ toString n
  else toString n

/-- The UTC-offset part printed by `datetime.isoformat`. -/
def tzSuffix (off : Int) : String :=
  if off < 0 then "-" ++ pad2 ((-off).toNat / 60) ++ ":" ++ pad2 ((-off).toNat % 60)
  else "+" ++ pad2 (off.toNat / 60) ++ ":" ++ pad2 (off.toNat % 60)

/-- `t.isoformat(timespec="milliseconds")` for an aware datetime. -/
def isoMs (t : DateTime) : String :=
  pad4 t.year.toNat ++ "-" ++ pad2 t.month ++ "-" ++ pad2 t.day ++ "T"
    ++ pad2 t.hour ++ ":" ++ pad2 t.minute ++ ":" ++ pad2 t.second
    ++ "." ++ pad3 t.millisecond ++ tzSuffix t.tzMinutes

/-- One entry of a reading record's `readingValues` list. -/
structure ReadingValue where
  readingType : String
  value : Int
  readingState : String
deriving DecidableEq

/-- One raw record of the `getMeterReading` response.  `readTime` is
modelled as the already-parsed instant (milliseconds since epoch); the
ISO-8601 string parsing, including the "Z"-suffix patch, is done by the
Python standard library and is not re-modelled. -/
structure RawReading where
  readTime : Int
  readingValues : List ReadingValue
deriving DecidableEq

/-- One iteration of the sub-value loop at source lines 372-376: skip a
sub-value whose state is not "Valid", otherwise assign its type-to-value
entry. -/
def mapStep (res : List (String × Int)) (rv : ReadingValue) : List (String × Int) :=
  if rv.readingState ≠ "Valid" then res
  else dictInsert res rv.readingType rv.value

/-- The sparse type-to-value dict built at source lines 371-376: iterate
the sub-values in order, skipping any whose state is not "Valid". -/
def buildMapping (rvs : List ReadingValue) : List (String × Int) :=
  rvs.foldl mapStep []

/-- An enriched record appended to `_fetch_data`'s result: the sparse
mapping plus the `readTime` and verbatim `readingValues` entries (kept
as separate fields here; in Python they are extra dict keys). -/
structure EnrichedReading where
  mapping : List (String × Int)
  readTime : Int
  readingValues : List ReadingValue
deriving DecidableEq

/-- The mutable per-meter slots of `SNGrazMeter`. -/
structure MeterState where
  data : Option (List EnrichedReading)
  firstReading : Option Int
  firstReadingDate : Option DateTime
  lastConsumptionDate : Option Int
  lastConsumption : Option Int
  lastReadingDate : Option Int
  lastReading : Option Int
deriving DecidableEq

/-- `not self._last_x_date or readTime > self._last_x_date` (a held
datetime is always truthy in Python, so the first disjunct is a `None`
test). -/
def newerThan (cur : Option Int) (t : Int) : Bool :=
  match cur with
  | none => true
  | some d => decide (d < t)

/-- The two tracker updates at source lines 386-397. -/
def updateTrackers (st : MeterState) (res : List (String × Int)) (readTime : Int) :
    MeterState :=
  let st1 :=
    if hasKey res "CONSUMP" && newerThan st.lastConsumptionDate readTime then
      { st with lastConsumptionDate := some readTime,
                lastConsumption := dictGet res "CONSUMP" }
    else st
  if hasKey res "MR" && newerThan st1.lastReadingDate readTime then
    { st1 with lastReadingDate := some readTime, lastReading := dictGet res "MR" }
  else st1

/-- One iteration of the record loop at source lines 370-398: build the
sparse mapping, skip the whole record when it is empty, otherwise update
the trackers and emit the enriched record. -/
def processReading (st : MeterState) (r : RawReading) :
    MeterState × Option EnrichedReading :=
  let res := buildMapping r.readingValues
  if res = [] then (st, none)
  else (updateTrackers st res r.readTime, some ⟨res, r.readTime, r.readingValues⟩)

/-- The whole record loop, emitting kept records in server order. -/
def processReadings (st : MeterState) :
    List RawReading → MeterState × List EnrichedReading
  | [] => (st, [])
  | r :: rs =>
    match processReading st r with
    | (st1, none) => processReadings st1 rs
    | (st1, some e) =>
      match processReadings st1 rs with
      | (st2, es) => (st2, e :: es)

/-- `SNGrazMeter._get_first_reading_date` (source lines 308-322).  The
`getMeterReadingMetaData` query is an oracle returning the parsed
`readingsAvailableSince` datetime (`none` models a failed query); the
code then zeroes the minute and attaches the configured time zone.  The
returned flag records whether the metadata query was issued. -/
def getFirstReadingDate (tz : Int) (st : MeterState) (metaOracle : Option DateTime) :
    Option DateTime × MeterState × Bool :=
  match st.firstReadingDate with
  | some d => (some d, st, false)
  | none =>
    match metaOracle with
    | none => (none, st, true)
    | some d0 =>
      let d := { d0 with minute := 0, tzMinutes := tz }
      (some d, { st with firstReadingDate := some d }, true)

/-- The `getMeterReading` request payload built at source lines 353-359. -/
structure FetchRequest where
  unitOfConsump : String
  interval : String
  meterPointId : Int
  fromDate : String
  toDate : String
deriving DecidableEq

/-- Result of one `_fetch_data` call: the returned value, the meter
state afterwards, the `getMeterReading` requests issued, and whether a
metadata query was issued. -/
structure FetchResult where
  resp : Option (List EnrichedReading)
  state : MeterState
  requests : List FetchRequest
  metaQueried : Bool
deriving DecidableEq

/-- `SNGrazMeter._fetch_data` after interval selection (source lines
346-399): resolve the first-reading date, clamp the window start
forward to it, build the payload, query, and process the records.  A
failed query and a response whose `readings` entry is missing or empty
both yield `None`. -/
def fetchDataCore (meterId tz : Int) (interval : String)
    (metaOracle : Option DateTime)
    (readOracle : FetchRequest → Option (List RawReading))
    (st : MeterState) (startTime endTime : DateTime) : FetchResult :=
  match getFirstReadingDate tz st metaOracle with
  | (none, st1, mq) => ⟨none, st1, [], mq⟩
  | (some firstReading, st1, mq) =>
    let startTime1 := if dtLt startTime firstReading then firstReading else startTime
    let payload : FetchRequest :=
      ⟨"KWH", interval, meterId, isoMs startTime1, isoMs endTime⟩
    match readOracle payload with
    | none => ⟨none, st1, [payload], mq⟩
    | some readings =>
      if readings.isEmpty then ⟨none, st1, [payload], mq⟩
      else
        match processReadings st1 readings with
        | (st2, result) => ⟨some result, st2, [payload], mq⟩

/-- `SNGrazMeter._fetch_data` (source lines 324-399): operational-mode
dispatch — "OptMiddle" selects the "Daily" interval and zeroes the end
time's hour and minute, "OptIn" selects "QuarterHourly" unchanged, any
other mode returns `None` without issuing a request. -/
def fetchData (meterId tz : Int) (optState : String)
    (metaOracle : Option DateTime)
    (readOracle : FetchRequest → Option (List RawReading))
    (st : MeterState) (startTime endTime : DateTime) : FetchResult :=
  if optState = "OptMiddle" then
    fetchDataCore meterId tz "Daily" metaOracle readOracle st startTime
      { endTime with hour := 0, minute := 0 }
  else if optState = "OptIn" then
    fetchDataCore meterId tz "QuarterHourly" metaOracle readOracle st startTime endTime
  else ⟨none, st, [], false⟩

/-- `SNGrazMeter.get_historic_data` (source lines 292-306): window from
`now` floored to the hour back `days` days, fetched and returned
directly. -/
def getHistoricData (meterId tz : Int) (optState : String)
    (metaOracle : Option DateTime)
    (readOracle : FetchRequest → Option (List RawReading))
    (st : MeterState) (now : DateTime) (days : Int) :
    Option (List EnrichedReading) × MeterState :=
  let endTime := { now with minute := 0, second := 0, millisecond := 0, tzMinutes := tz }
  let startTime := addDays endTime (-days)
  let r := fetchData meterId tz optState metaOracle readOracle st startTime endTime
  (r.resp, r.state)

/-- Arguments of one `_fetch_data` call in a sequence of fetches
performed on one meter instance. -/
structure FetchCall where
  metaOracle : Option DateTime
  readOracle : FetchRequest → Option (List RawReading)
  startTime : DateTime
  endTime : DateTime

/-- State evolution of one meter across a sequence of `_fetch_data`
calls. -/
def fetchFold (meterId tz : Int) (optState : String) (st : MeterState)
    (calls : List FetchCall) : MeterState :=
  calls.foldl
    (fun s c =>
      (fetchData meterId tz optState c.metaOracle c.readOracle s c.startTime c.endTime).state)
    st

theorem hasKey_iff {κ α : Type} [DecidableEq κ] (m : List (κ × α)) (t : κ) :
    hasKey m t = true ↔ ∃ p ∈ m, p.1 = t := by
  simp [hasKey, List.any_eq_true]

theorem hasKey_dictInsert {κ α : Type} [DecidableEq κ] (m : List (κ × α)) (k t : κ)
    (v : α) :
    hasKey (dictInsert m k v) t = (hasKey m t || decide (k = t)) := by
  unfold dictInsert hasKey
  by_cases h : m.any (fun p => decide (p.1 = k)) = true
  · rw [if_pos h, List.any_map]
    have hf : ((fun p : κ × α => decide (p.1 = t)) ∘ fun p => if p.1 = k then (k, v) else p)
        = fun p : κ × α => decide (p.1 = t) := by
      funext p
      by_cases hpk : p.1 = k
      · simp [hpk]
      · simp [hpk]
    rw [hf]
    by_cases hkt : k = t
    · subst hkt
      simp [h]
    · simp [hkt]
  · rw [if_neg h, List.any_append]
    simp

theorem mem_dictInsert {κ α : Type} [DecidableEq κ] (m : List (κ × α)) (k : κ) (v : α) :
    ∀ q ∈ dictInsert m k v, q ∈ m ∨ q = (k, v) := by
  intro q hq
  unfold dictInsert at hq
  by_cases h : m.any (fun p => decide (p.1 = k)) = true
  · rw [if_pos h] at hq
    rcases List.mem_map.1 hq with ⟨p, hp, hfp⟩
    by_cases hpk : p.1 = k
    · right
      rw [← hfp]
      simp [hpk]
    · left
      rw [← hfp]
      simpa [hpk] using hp
  · rw [if_neg h] at hq
    rcases List.mem_append.1 hq with h1 | h1
    · exact Or.inl h1
    · exact Or.inr (by simpa using h1)

theorem hasKey_mapFold (rvs : List ReadingValue) :
    ∀ (res : List (String × Int)) (t : String),
      hasKey (rvs.foldl mapStep res) t
        = (hasKey res t
            || rvs.any (fun rv =>
                 decide (rv.readingState = "Valid") && decide (rv.readingType = t))) := by
  induction rvs with
  | nil =>
    intro res t
    simp
  | cons rv rvs ih =>
    intro res t
    rw [List.foldl_cons, ih, List.any_cons]
    unfold mapStep
    by_cases hv : rv.readingState = "Valid"
    · rw [if_neg (by simp [hv]), hasKey_dictInsert]
      by_cases ht : rv.readingType = t
      · simp [hv, ht, Bool.or_assoc, Bool.or_comm, Bool.or_left_comm]
      · simp [hv, ht]
    · rw [if_pos hv]
      simp [hv]

theorem entries_mapFold {C : String × Int → Prop} (rvs : List ReadingValue) :
    ∀ res : List (String × Int),
      (∀ q ∈ res, C q) →
      (∀ rv ∈ rvs, rv.readingState = "Valid" → C (rv.readingType, rv.value)) →
      ∀ q ∈ rvs.foldl mapStep res, C q := by
  induction rvs with
  | nil =>
    intro res hres _ q hq
    exact hres q hq
  | cons rv rvs ih =>
    intro res hres hrvs q hq
    rw [List.foldl_cons] at hq
    refine ih (mapStep res rv) ?_ (fun rv2 h2 hv2 => hrvs rv2 (List.mem_cons_of_mem _ h2) hv2) q hq
    intro q2 hq2
    unfold mapStep at hq2
    by_cases hv : rv.readingState ≠ "Valid"
    · rw [if_pos hv] at hq2
      exact hres q2 hq2
    · rw [if_neg hv] at hq2
      rcases mem_dictInsert res rv.readingType rv.value q2 hq2 with h | h
      · exact hres q2 h
      · rw [h]
        exact hrvs rv (List.mem_cons_self rv rvs) (not_ne_iff.1 hv)

theorem processReadings_snd (rs : List RawReading) :
    ∀ st : MeterState,
      (processReadings st rs).2 = rs.filterMap (fun r =>
        if buildMapping r.readingValues = [] then none
        else some ⟨buildMapping r.readingValues, r.readTime, r.readingValues⟩) := by
  induction rs with
  | nil =>
    intro st
    rfl
  | cons r rs ih =>
    intro st
    by_cases h : buildMapping r.readingValues = []
    · have hpr : processReading st r = (st, none) := by
        simp [processReading, h]
      simp [processReadings, hpr, ih, h]
    · have hpr : processReading st r
          = (updateTrackers st (buildMapping r.readingValues) r.readTime,
             some ⟨buildMapping r.readingValues, r.readTime, r.readingValues⟩) := by
        simp [processReading, h]
      simp [processReadings, hpr, ih, h]

/-- C3: a type is present in the derived sparse mapping exactly when
some sub-value in state "Valid" has that type; every mapping entry comes
from a "Valid" sub-value; a record whose mapping is empty is excluded
from the result sequence, and kept records carry their raw sub-value
list verbatim. -/
theorem C3_estimated_value_filtering :
    (∀ (rvs : List ReadingValue) (t : String),
      hasKey (buildMapping rvs) t = true
        ↔ ∃ rv ∈ rvs, rv.readingState = "Valid" ∧ rv.readingType = t) ∧
    (∀ (rvs : List ReadingValue), ∀ q ∈ buildMapping rvs,
      ∃ rv ∈ rvs, rv.readingState = "Valid" ∧ rv.readingType = q.1 ∧ rv.value = q.2) ∧
    (∀ (st : MeterState) (rs : List RawReading),
      (processReadings st rs).2 = rs.filterMap (fun r =>
        if buildMapping r.readingValues = [] then none
        else some ⟨buildMapping r.readingValues, r.readTime, r.readingValues⟩)) := by
  refine ⟨?_, ?_, ?_⟩
  · intro rvs t
    rw [buildMapping, hasKey_mapFold rvs [] t]
    simp [hasKey, List.any_eq_true]
  · intro rvs q hq
    refine @entries_mapFold
      (fun q => ∃ rv ∈ rvs, rv.readingState = "Valid" ∧ rv.readingType = q.1 ∧ rv.value = q.2)
      rvs [] (by simp) ?_ q hq
    intro rv hrv hv
    exact ⟨rv, hrv, hv, rfl, rfl⟩
  · intro st rs
    exact processReadings_snd rs st

theorem C3_estimated_value_filtering_witness :
    ∃ rv ∈ [ReadingValue.mk "A" 5 "Valid", ReadingValue.mk "B" 9 "Estimated"],
      rv.readingState = "Valid" ∧ rv.readingType = "A" ∧ rv.value = 5 := by
  have h := C3_estimated_value_filtering.2.1
    [ReadingValue.mk "A" 5 "Valid", ReadingValue.mk "B" 9 "Estimated"] ("A", 5)
  exact h (by decide)

/-- Maximum-so-far step implemented by the tracker guard. -/
def newerStep (c : Option Int) (t : Int) : Option Int :=
  match c with
  | none => some t
  | some d => if d < t then some t else some d

/-- Fold of `newerStep` over a list of timestamps. -/
def trackMax (c : Option Int) (ts : List Int) : Option Int :=
  ts.foldl newerStep c

/-- Order on optional timestamps, `none` below everything. -/
def optTimeLe : Option Int → Option Int → Bool
  | none, _ => true
  | some _, none => false
  | some d, some e => decide (d ≤ e)

/-- Whether a record is kept and its mapping feeds the consumption
tracker. -/
def keepsConsump (r : RawReading) : Bool :=
  decide (buildMapping r.readingValues ≠ [])
    && hasKey (buildMapping r.readingValues) "CONSUMP"

/-- Whether a record is kept and its mapping feeds the reading tracker. -/
def keepsMR (r : RawReading) : Bool :=
  decide (buildMapping r.readingValues ≠ [])
    && hasKey (buildMapping r.readingValues) "MR"

/-- Timestamps of the records that feed the consumption tracker. -/
def consumpTimes : List RawReading → List Int
  | [] => []
  | r :: rs => if keepsConsump r then r.readTime :: consumpTimes rs else consumpTimes rs

/-- Timestamps of the records that feed the reading tracker. -/
def mrTimes : List RawReading → List Int
  | [] => []
  | r :: rs => if keepsMR r then r.readTime :: mrTimes rs else mrTimes rs

theorem newerStep_eq (c : Option Int) (t : Int) :
    newerStep c t = if newerThan c t then some t else c := by
  cases c <;> simp [newerStep, newerThan]

theorem updateTrackers_consumpDate (st : MeterState) (res : List (String × Int)) (t : Int) :
    (updateTrackers st res t).lastConsumptionDate =
      if hasKey res "CONSUMP" && newerThan st.lastConsumptionDate t then some t
      else st.lastConsumptionDate := by
  cases hC : hasKey res "CONSUMP" && newerThan st.lastConsumptionDate t <;>
    simp only [updateTrackers, hC, Bool.false_eq_true, if_false, if_true] <;>
    split <;> rfl

theorem updateTrackers_consump (st : MeterState) (res : List (String × Int)) (t : Int) :
    (updateTrackers st res t).lastConsumption =
      if hasKey res "CONSUMP" && newerThan st.lastConsumptionDate t then dictGet res "CONSUMP"
      else st.lastConsumption := by
  cases hC : hasKey res "CONSUMP" && newerThan st.lastConsumptionDate t <;>
    simp only [updateTrackers, hC, Bool.false_eq_true, if_false, if_true] <;>
    split <;> rfl

theorem updateTrackers_readingDate (st : MeterState) (res : List (String × Int)) (t : Int) :
    (updateTrackers st res t).lastReadingDate =
      if hasKey res "MR" && newerThan st.lastReadingDate t then some t
      else st.lastReadingDate := by
  cases hC : hasKey res "CONSUMP" && newerThan st.lastConsumptionDate t <;>
    simp only [updateTrackers, hC, Bool.false_eq_true, if_false, if_true] <;>
    split <;> rfl

theorem updateTrackers_reading (st : MeterState) (res : List (String × Int)) (t : Int) :
    (updateTrackers st res t).lastReading =
      if hasKey res "MR" && newerThan st.lastReadingDate t then dictGet res "MR"
      else st.lastReading := by
  cases hC : hasKey res "CONSUMP" && newerThan st.lastConsumptionDate t <;>
    simp only [updateTrackers, hC, Bool.false_eq_true, if_false, if_true] <;>
    split <;> rfl

theorem updateTrackers_misc (st : MeterState) (res : List (String × Int)) (t : Int) :
    (updateTrackers st res t).data = st.data ∧
    (updateTrackers st res t).firstReading = st.firstReading ∧
    (updateTrackers st res t).firstReadingDate = st.firstReadingDate := by
  cases hC : hasKey res "CONSUMP" && newerThan st.lastConsumptionDate t <;>
    simp only [updateTrackers, hC, Bool.false_eq_true, if_false, if_true] <;>
    split <;> exact ⟨rfl, rfl, rfl⟩

theorem processReading_fst (st : MeterState) (r : RawReading) :
    (processReading st r).1 =
      if buildMapping r.readingValues = [] then st
      else updateTrackers st (buildMapping r.readingValues) r.readTime := by
  by_cases h : buildMapping r.readingValues = [] <;> simp [processReading, h]

theorem processReadings_consumpDate (rs : List RawReading) :
    ∀ st : MeterState,
      (processReadings st rs).1.lastConsumptionDate
        = trackMax st.lastConsumptionDate (consumpTimes rs) := by
  induction rs with
  | nil =>
    intro st
    rfl
  | cons r rs ih =>
    intro st
    by_cases h : buildMapping r.readingValues = []
    · have hpr : processReading st r = (st, none) := by
        simp [processReading, h]
      have hk : keepsConsump r = false := by
        simp [keepsConsump, h]
      simp [processReadings, hpr, ih, consumpTimes, hk]
    · have hpr : processReading st r
          = (updateTrackers st (buildMapping r.readingValues) r.readTime,
             some ⟨buildMapping r.readingValues, r.readTime, r.readingValues⟩) := by
        simp [processReading, h]
      cases hk : hasKey (buildMapping r.readingValues) "CONSUMP"
      · have hkc : keepsConsump r = false := by
          simp [keepsConsump, hk]
        have hdate := updateTrackers_consumpDate st (buildMapping r.readingValues) r.readTime
        rw [hk] at hdate
        simp only [Bool.false_and, Bool.false_eq_true, if_false] at hdate
        simp [processReadings, hpr, ih, consumpTimes, hkc, hdate]
      · have hkc : keepsConsump r = true := by
          simp [keepsConsump, h, hk]
        have hdate := updateTrackers_consumpDate st (buildMapping r.readingValues) r.readTime
        rw [hk] at hdate
        simp only [Bool.true_and] at hdate
        simp [processReadings, hpr, ih, consumpTimes, hkc, hdate, trackMax,
          newerStep_eq]

theorem processReadings_readingDate (rs : List RawReading) :
    ∀ st : MeterState,
      (processReadings st rs).1.lastReadingDate
        = trackMax st.lastReadingDate (mrTimes rs) := by
  induction rs with
  | nil =>
    intro st
    rfl
  | cons r rs ih =>
    intro st
    by_cases h : buildMapping r.readingValues = []
    · have hpr : processReading st r = (st, none) := by
        simp [processReading, h]
      have hk : keepsMR r = false := by
        simp [keepsMR, h]
      simp [processReadings, hpr, ih, mrTimes, hk]
    · have hpr : processReading st r
          = (updateTrackers st (buildMapping r.readingValues) r.readTime,
             some ⟨buildMapping r.readingValues, r.readTime, r.readingValues⟩) := by
        simp [processReading, h]
      cases hk : hasKey (buildMapping r.readingValues) "MR"
      · have hkc : keepsMR r = false := by
          simp [keepsMR, hk]
        have hdate := updateTrackers_readingDate st (buildMapping r.readingValues) r.readTime
        rw [hk] at hdate
        simp only [Bool.false_and, Bool.false_eq_true, if_false] at hdate
        simp [processReadings, hpr, ih, mrTimes, hkc, hdate]
      · have hkc : keepsMR r = true := by
          simp [keepsMR, h, hk]
        have hdate := updateTrackers_readingDate st (buildMapping r.readingValues) r.readTime
        rw [hk] at hdate
        simp only [Bool.true_and] at hdate
        simp [processReadings, hpr, ih, mrTimes, hkc, hdate, trackMax, newerStep_eq]

theorem processReadings_misc (rs : List RawReading) :
    ∀ st : MeterState,
      (processReadings st rs).1.data = st.data ∧
      (processReadings st rs).1.firstReading = st.firstReading ∧
      (processReadings st rs).1.firstReadingDate = st.firstReadingDate := by
  induction rs with
  | nil =>
    intro st
    exact ⟨rfl, rfl, rfl⟩
  | cons r rs ih =>
    intro st
    by_cases h : buildMapping r.readingValues = []
    · have hpr : processReading st r = (st, none) := by
        simp [processReading, h]
      simpa [processReadings, hpr] using ih st
    · have hpr : processReading st r
          = (updateTrackers st (buildMapping r.readingValues) r.readTime,
             some ⟨buildMapping r.readingValues, r.readTime, r.readingValues⟩) := by
        simp [processReading, h]
      have hm := updateTrackers_misc st (buildMapping r.readingValues) r.readTime
      have hih := ih (updateTrackers st (buildMapping r.readingValues) r.readTime)
      refine ⟨?_, ?_, ?_⟩ <;>
        simp [processReadings, hpr, hih.1, hih.2.1, hih.2.2, hm.1, hm.2.1, hm.2.2]

theorem optTimeLe_refl (c : Option Int) : optTimeLe c c = true := by
  cases c <;> simp [optTimeLe]

theorem optTimeLe_trans {a b c : Option Int} (hab : optTimeLe a b = true)
    (hbc : optTimeLe b c = true) : optTimeLe a c = true := by
  cases a with
  | none => rfl
  | some x =>
    cases b with
    | none => exact absurd hab (by simp [optTimeLe])
    | some y =>
      cases c with
      | none => exact absurd hbc (by simp [optTimeLe])
      | some z =>
        simp only [optTimeLe, decide_eq_true_eq] at *
        omega

theorem optTimeLe_newerStep (c : Option Int) (t : Int) :
    optTimeLe c (newerStep c t) = true := by
  cases c with
  | none => rfl
  | some d =>
    simp only [newerStep]
    split
    · simp only [optTimeLe, decide_eq_true_eq]
      omega
    · simp [optTimeLe]

theorem optTimeLe_trackMax (ts : List Int) :
    ∀ c : Option Int, optTimeLe c (trackMax c ts) = true := by
  induction ts with
  | nil =>
    intro c
    exact optTimeLe_refl c
  | cons t ts ih =>
    intro c
    have h1 := optTimeLe_newerStep c t
    have h2 := ih (newerStep c t)
    have h3 : trackMax c (t :: ts) = trackMax (newerStep c t) ts := by
      simp [trackMax]
    rw [h3]
    exact optTimeLe_trans h1 h2

theorem getFirstReadingDate_misc (tz : Int) (st : MeterState) (mo : Option DateTime) :
    ((getFirstReadingDate tz st mo).2.1).lastConsumptionDate = st.lastConsumptionDate ∧
    ((getFirstReadingDate tz st mo).2.1).lastConsumption = st.lastConsumption ∧
    ((getFirstReadingDate tz st mo).2.1).lastReadingDate = st.lastReadingDate ∧
    ((getFirstReadingDate tz st mo).2.1).lastReading = st.lastReading ∧
    ((getFirstReadingDate tz st mo).2.1).data = st.data ∧
    ((getFirstReadingDate tz st mo).2.1).firstReading = st.firstReading := by
  cases hfd : st.firstReadingDate <;> cases mo <;>
    simp [getFirstReadingDate, hfd]

/-- The state after a `_fetch_data` call is the initial state as passed
through `_get_first_reading_date`, possibly further transformed by the
record loop. -/
theorem fetchData_state_cases (meterId tz : Int) (optState : String)
    (mo : Option DateTime) (ro : FetchRequest → Option (List RawReading))
    (st : MeterState) (s e : DateTime) :
    (fetchData meterId tz optState mo ro st s e).state = st ∨
    (fetchData meterId tz optState mo ro st s e).state = (getFirstReadingDate tz st mo).2.1 ∨
    ∃ readings, (fetchData meterId tz optState mo ro st s e).state
      = (processReadings (getFirstReadingDate tz st mo).2.1 readings).1 := by
  have hcore : ∀ (interval : String) (e2 : DateTime),
      (fetchDataCore meterId tz interval mo ro st s e2).state
          = (getFirstReadingDate tz st mo).2.1 ∨
      ∃ readings, (fetchDataCore meterId tz interval mo ro st s e2).state
          = (processReadings (getFirstReadingDate tz st mo).2.1 readings).1 := by
    intro interval e2
    unfold fetchDataCore
    rcases hg : getFirstReadingDate tz st mo with ⟨fr, st1, mq⟩
    cases fr with
    | none =>
      left
      simp [hg]
    | some d =>
      simp only [hg]
      cases hro : ro ⟨"KWH", interval, meterId,
          isoMs (if dtLt s d then d else s), isoMs e2⟩ with
      | none =>
        left
        simp [hro]
      | some readings =>
        by_cases hemp : readings.isEmpty
        · left
          simp [hro, hemp]
        · right
          refine ⟨readings, ?_⟩
          rcases hp : processReadings st1 readings with ⟨st2, es⟩
          simp [hro, hemp, hp]
  unfold fetchData
  by_cases h1 : optState = "OptMiddle"
  · rw [if_pos h1]
    rcases hcore "Daily" { e with hour := 0, minute := 0 } with h | h
    · exact Or.inr (Or.inl h)
    · exact Or.inr (Or.inr h)
  · rw [if_neg h1]
    by_cases h2 : optState = "OptIn"
    · rw [if_pos h2]
      rcases hcore "QuarterHourly" e with h | h
      · exact Or.inr (Or.inl h)
      · exact Or.inr (Or.inr h)
    · rw [if_neg h2]
      exact Or.inl rfl

theorem fetchData_consumpDate_mono (meterId tz : Int) (optState : String)
    (mo : Option DateTime) (ro : FetchRequest → Option (List RawReading))
    (st : MeterState) (s e : DateTime) :
    optTimeLe st.lastConsumptionDate
      (fetchData meterId tz optState mo ro st s e).state.lastConsumptionDate = true := by
  rcases fetchData_state_cases meterId tz optState mo ro st s e with h | h | ⟨readings, h⟩
  · rw [h]
    exact optTimeLe_refl _
  · rw [h, (getFirstReadingDate_misc tz st mo).1]
    exact optTimeLe_refl _
  · rw [h, processReadings_consumpDate, (getFirstReadingDate_misc tz st mo).1]
    exact optTimeLe_trackMax _ _

theorem fetchData_readingDate_mono (meterId tz : Int) (optState : String)
    (mo : Option DateTime) (ro : FetchRequest → Option (List RawReading))
    (st : MeterState) (s e : DateTime) :
    optTimeLe st.lastReadingDate
      (fetchData meterId tz optState mo ro st s e).state.lastReadingDate = true := by
  rcases fetchData_state_cases meterId tz optState mo ro st s e with h | h | ⟨readings, h⟩
  · rw [h]
    exact optTimeLe_refl _
  · rw [h, (getFirstReadingDate_misc tz st mo).2.2.1]
    exact optTimeLe_refl _
  · rw [h, processReadings_readingDate, (getFirstReadingDate_misc tz st mo).2.2.1]
    exact optTimeLe_trackMax _ _

/-- C4: each tracker is updated by a processed record only when the
record feeds it and its timestamp is strictly newer than the cached one;
across a whole record batch each tracker's timestamp is the running
maximum of the cached timestamp and all feeding records' timestamps; and
across any sequence of `_fetch_data` calls on one meter instance both
trackers are monotone, never regressing to an older timestamp. -/
theorem C4_monotonic_trackers (s : MeterState) (r : RawReading) (st : MeterState)
    (rs : List RawReading) (meterId tz : Int) (optState : String)
    (calls : List FetchCall) :
    ((processReading s r).1.lastConsumptionDate =
      if keepsConsump r && newerThan s.lastConsumptionDate r.readTime
      then some r.readTime else s.lastConsumptionDate) ∧
    ((processReading s r).1.lastConsumption =
      if keepsConsump r && newerThan s.lastConsumptionDate r.readTime
      then dictGet (buildMapping r.readingValues) "CONSUMP" else s.lastConsumption) ∧
    ((processReading s r).1.lastReadingDate =
      if keepsMR r && newerThan s.lastReadingDate r.readTime
      then some r.readTime else s.lastReadingDate) ∧
    ((processReading s r).1.lastReading =
      if keepsMR r && newerThan s.lastReadingDate r.readTime
      then dictGet (buildMapping r.readingValues) "MR" else s.lastReading) ∧
    ((processReadings st rs).1.lastConsumptionDate
      = trackMax st.lastConsumptionDate (consumpTimes rs)) ∧
    ((processReadings st rs).1.lastReadingDate
      = trackMax st.lastReadingDate (mrTimes rs)) ∧
    (optTimeLe st.lastConsumptionDate
      (fetchFold meterId tz optState st calls).lastConsumptionDate = true) ∧
    (optTimeLe st.lastReadingDate
      (fetchFold meterId tz optState st calls).lastReadingDate = true) := by
  refine ⟨?_, ?_, ?_, ?_,
    processReadings_consumpDate rs st, processReadings_readingDate rs st, ?_, ?_⟩
  · rw [processReading_fst]
    by_cases h : buildMapping r.readingValues = []
    · simp [h, keepsConsump]
    · rw [if_neg h, updateTrackers_consumpDate]
      simp [keepsConsump, h]
  · rw [processReading_fst]
    by_cases h : buildMapping r.readingValues = []
    · simp [h, keepsConsump]
    · rw [if_neg h, updateTrackers_consump]
      simp [keepsConsump, h]
  · rw [processReading_fst]
    by_cases h : buildMapping r.readingValues = []
    · simp [h, keepsMR]
    · rw [if_neg h, updateTrackers_readingDate]
      simp [keepsMR, h]
  · rw [processReading_fst]
    by_cases h : buildMapping r.readingValues = []
    · simp [h, keepsMR]
    · rw [if_neg h, updateTrackers_reading]
      simp [keepsMR, h]
  · induction calls generalizing st with
    | nil => exact optTimeLe_refl _
    | cons c cs ih =>
      refine optTimeLe_trans
        (fetchData_consumpDate_mono meterId tz optState c.metaOracle c.readOracle st
          c.startTime c.endTime) ?_
      simpa [fetchFold] using
        ih (fetchData meterId tz optState c.metaOracle c.readOracle st c.startTime c.endTime).state
  · induction calls generalizing st with
    | nil => exact optTimeLe_refl _
    | cons c cs ih =>
      refine optTimeLe_trans
        (fetchData_readingDate_mono meterId tz optState c.metaOracle c.readOracle st
          c.startTime c.endTime) ?_
      simpa [fetchFold] using
        ih (fetchData meterId tz optState c.metaOracle c.readOracle st c.startTime c.endTime).state

/-- Python truthiness of an optional integer: `None` and `0` are falsy. -/
def intTruthy : Option Int → Bool
  | none => false
  | some v => decide (v ≠ 0)

/-- The `while len(resp) == 0` loop of `SNGrazMeter.get_first_reading`
(source lines 410-417), made total with a fuel parameter (the source
loop is unbounded; `none` in the first component models running out of
fuel, i.e. the loop not having terminated yet).  Each iteration calls
`_fetch_data` on the current window, stops with `None` when it fails,
advances both edges by 7 days when the result is empty, and otherwise
exits with the result.  The second component records the window of every
`_fetch_data` call made, in order. -/
def scanLoop (meterId tz : Int) (optState : String)
    (metaOracle : Option DateTime) (readOracle : FetchRequest → Option (List RawReading)) :
    Nat → MeterState → DateTime → DateTime →
      Option (Option (List EnrichedReading) × MeterState) × List (DateTime × DateTime)
  | 0, _, _, _ => (none, [])
  | fuel + 1, st, s, e =>
    match fetchData meterId tz optState metaOracle readOracle st s e with
    | ⟨none, st1, _, _⟩ => (some (none, st1), [(s, e)])
    | ⟨some resp, st1, _, _⟩ =>
      if resp.isEmpty then
        match scanLoop meterId tz optState metaOracle readOracle fuel st1
            (addDays s 7) (addDays (addDays s 7) 7) with
        | (out, ws) => (out, (s, e) :: ws)
      else (some (some resp, st1), [(s, e)])

/-- `SNGrazMeter.get_first_reading` (source lines 401-424).  The result
carries the returned value and meter state (`none` models fuel
exhaustion of the unbounded loop), the windows of all `_fetch_data`
calls, and whether a metadata query was issued.  The source's
`"MR" not in resp[0]` test and the subsequent `resp[0].get("MR")` are
collapsed into one match on the lookup. -/
def getFirstReading (fuel : Nat) (meterId tz : Int) (optState : String)
    (metaOracle : Option DateTime) (readOracle : FetchRequest → Option (List RawReading))
    (st : MeterState) :
    Option (Option Int × MeterState) × List (DateTime × DateTime) × Bool :=
  if intTruthy st.firstReading then (some (st.firstReading, st), [], false)
  else
    match getFirstReadingDate tz st metaOracle with
    | (none, st1, mq) => (some (none, st1), [], mq)
    | (some startTime, st1, mq) =>
      match scanLoop meterId tz optState metaOracle readOracle fuel st1 startTime
          (addDays startTime 7) with
      | (none, ws) => (none, ws, mq)
      | (some (none, st2), ws) => (some (none, st2), ws, mq)
      | (some (some resp, st2), ws) =>
        match resp.head? with
        | none => (some (none, st2), ws, mq)
        | some first =>
          match dictGet first.mapping "MR" with
          | none => (some (none, st2), ws, mq)
          | some v => (some (some v, { st2 with firstReading := some v }), ws, mq)

/-- `d` advanced by `n` weeks, one 7-day step at a time. -/
def iter7 (d : DateTime) : Nat → DateTime
  | 0 => d
  | n + 1 => iter7 (addDays d 7) n

/-- A reading record all of whose sub-values are estimated: the server
keeps answering with it, so every derived mapping is empty and the scan
loop never stops. -/
def estRecord : RawReading :=
  ⟨0, [⟨"CONSUMP", 1, "Estimated"⟩]⟩

/-- A simulated server that always returns `estRecord`. -/
def estOracle : FetchRequest → Option (List RawReading) :=
  fun _ => some [estRecord]

/-- One entry of the `meterPoints` list of an installation record. -/
structure MeterPointRecord where
  meterPointID : Option Int
deriving DecidableEq

/-- One record of the `getInstallations` response. -/
structure InstallationRecord where
  installationID : Option Int
  meterPoints : List MeterPointRecord
deriving DecidableEq

/-- An `SNGrazInstallation`: its id and its meter mapping. -/
structure Installation where
  installationId : Int
  meters : List (Int × MeterPointRecord)
deriving DecidableEq

/-- The meter-mapping construction in `SNGrazInstallation.__init__`
(source lines 216-219): `if not (meter_id := _meter.get("meterPointID")):
continue` skips falsy ids, i.e. both a missing/None id and the id 0. -/
def buildMeters (mps : List MeterPointRecord) : List (Int × MeterPointRecord) :=
  mps.foldl
    (fun m mp =>
      match mp.meterPointID with
      | none => m
      | some mid => if mid = 0 then m else dictInsert m mid mp)
    []

/-- `StromNetzGraz.update_info` (source lines 158-168): upsert an
Installation for every record with a truthy `installationID`, skipping
falsy ids (missing/None and 0) the same way. -/
def updateInfo (insts : List (Int × Installation))
    (res : Option (List InstallationRecord)) : List (Int × Installation) :=
  match res with
  | none => insts
  | some records =>
    records.foldl
      (fun m ir =>
        match ir.installationID with
        | none => m
        | some iid =>
          if iid = 0 then m
          else dictInsert m iid ⟨iid, buildMeters ir.meterPoints⟩)
      insts

/-- Witness fixture: the freshly constructed meter state. -/
def emptyMeter : MeterState :=
  ⟨none, none, none, none, none, none, none⟩

/-- Witness fixture: a raw `readingsAvailableSince` datetime. -/
def wMetaDate : DateTime :=
  ⟨2024, 1, 5, 10, 30, 0, 0, 0⟩

/-- Witness fixture: `wMetaDate` with the minute zeroed and the
configured zone (+60 minutes) attached. -/
def wFr : DateTime :=
  ⟨2024, 1, 5, 10, 0, 0, 0, 60⟩

/-- Witness fixture: a window start before `wFr`. -/
def wStart : DateTime :=
  ⟨2024, 1, 1, 8, 0, 0, 0, 60⟩

/-- Witness fixture: a window end. -/
def wEnd : DateTime :=
  ⟨2024, 1, 31, 8, 45, 0, 0, 60⟩

/-- Fixture: a server answering every reading query with one record
holding a single valid absolute reading of 5. -/
def mrOracle : FetchRequest → Option (List RawReading) :=
  fun _ => some [⟨500, [⟨"MR", 5, "Valid"⟩]⟩]

/-- Fixture: a meter whose first-reading slot holds the resolved value
0 and whose first-reading date is cached. -/
def c8State : MeterState :=
  ⟨none, some 0, some wFr, none, none, none, none⟩

/-- Fixture: a meter with only the first-reading date cached. -/
def c7State : MeterState :=
  ⟨none, none, some wFr, none, none, none, none⟩

/-- Fixture: a wall-clock instant. -/
def wNow : DateTime :=
  ⟨2024, 1, 6, 12, 34, 56, 789, 0⟩

theorem fetchDataCore_requests (meterId tz : Int) (interval : String)
    (mo : Option DateTime) (ro : FetchRequest → Option (List RawReading))
    (st st1 : MeterState) (s e2 fr : DateTime) (mq : Bool)
    (hg : getFirstReadingDate tz st mo = (some fr, st1, mq)) :
    (fetchDataCore meterId tz interval mo ro st s e2).requests
      = [⟨"KWH", interval, meterId, isoMs (if dtLt s fr then fr else s), isoMs e2⟩] := by
  unfold fetchDataCore
  rw [hg]
  dsimp only
  cases hro : ro ⟨"KWH", interval, meterId, isoMs (if dtLt s fr then fr else s), isoMs e2⟩ with
  | none => simp [hro]
  | some readings =>
    by_cases hemp : readings.isEmpty
    · simp [hro, hemp]
    · rcases hp : processReadings st1 readings with ⟨st2, es⟩
      simp [hro, hemp, hp]

/-- C5: `_fetch_data` in mode "OptMiddle" selects the "Daily" interval
and zeroes the end time's hour and minute; in mode "OptIn" it selects
"QuarterHourly" with the end time unchanged; any other mode returns
`None` with no `getMeterReading` request; the start is clamped forward
to the resolved first-reading date when it precedes it; and the issued
payload fixes the unit to kWh and carries the interval, the meter id,
and millisecond-precision ISO-8601 start/end timestamps. -/
theorem C5_fetch_request_shaping (meterId tz : Int) (optState : String)
    (mo : Option DateTime) (ro : FetchRequest → Option (List RawReading))
    (st st1 : MeterState) (startTime endTime fr : DateTime) (mq : Bool) :
    (optState ≠ "OptMiddle" → optState ≠ "OptIn" →
      fetchData meterId tz optState mo ro st startTime endTime
        = ⟨none, st, [], false⟩) ∧
    (getFirstReadingDate tz st mo = (some fr, st1, mq) →
      ((fetchData meterId tz "OptMiddle" mo ro st startTime endTime).requests
        = [⟨"KWH", "Daily", meterId,
            isoMs (if dtLt startTime fr then fr else startTime),
            isoMs { endTime with hour := 0, minute := 0 }⟩] ∧
      (fetchData meterId tz "OptIn" mo ro st startTime endTime).requests
        = [⟨"KWH", "QuarterHourly", meterId,
            isoMs (if dtLt startTime fr then fr else startTime),
            isoMs endTime⟩] ∧
      (dtLt startTime fr = true →
        (fetchData meterId tz "OptIn" mo ro st startTime endTime).requests
          = [⟨"KWH", "QuarterHourly", meterId, isoMs fr, isoMs endTime⟩]))) := by
  constructor
  · intro h1 h2
    unfold fetchData
    rw [if_neg h1, if_neg h2]
  · intro hg
    refine ⟨?_, ?_, ?_⟩
    · unfold fetchData
      rw [if_pos rfl]
      exact fetchDataCore_requests meterId tz "Daily" mo ro st st1 startTime
        { endTime with hour := 0, minute := 0 } fr mq hg
    · unfold fetchData
      rw [if_neg (by decide), if_pos rfl]
      exact fetchDataCore_requests meterId tz "QuarterHourly" mo ro st st1 startTime
        endTime fr mq hg
    · intro hlt
      unfold fetchData
      rw [if_neg (by decide), if_pos rfl,
        fetchDataCore_requests meterId tz "QuarterHourly" mo ro st st1 startTime
          endTime fr mq hg]
      simp [hlt]

theorem C5_fetch_request_shaping_witness :
    fetchData 7 60 "OptOut" (some wMetaDate) (fun _ => none) emptyMeter wStart wEnd
      = ⟨none, emptyMeter, [], false⟩ ∧
    (fetchData 7 60 "OptMiddle" (some wMetaDate) (fun _ => none) emptyMeter wStart wEnd).requests
      = [⟨"KWH", "Daily", 7, "2024-01-05T10:00:00.000+01:00",
          "2024-01-31T00:00:00.000+01:00"⟩] ∧
    (fetchData 7 60 "OptIn" (some wMetaDate) (fun _ => none) emptyMeter wStart wEnd).requests
      = [⟨"KWH", "QuarterHourly", 7, "2024-01-05T10:00:00.000+01:00",
          "2024-01-31T08:45:00.000+01:00"⟩] := by
  have h := C5_fetch_request_shaping 7 60 "OptOut" (some wMetaDate) (fun _ => none)
    emptyMeter { emptyMeter with firstReadingDate := some wFr } wStart wEnd wFr true
  have hg : getFirstReadingDate 60 emptyMeter (some wMetaDate)
      = (some wFr, { emptyMeter with firstReadingDate := some wFr }, true) := by decide
  refine ⟨h.1 (by decide) (by decide), ?_, ?_⟩
  · exact ((h.2 hg).1).trans (by decide)
  · exact ((h.2 hg).2.2 (by decide)).trans (by decide)

theorem fetchData_data (meterId tz : Int) (optState : String) (mo : Option DateTime)
    (ro : FetchRequest → Option (List RawReading)) (st : MeterState) (s e : DateTime) :
    (fetchData meterId tz optState mo ro st s e).state.data = st.data := by
  rcases fetchData_state_cases meterId tz optState mo ro st s e with h | h | ⟨readings, h⟩
  · rw [h]
  · rw [h]
    exact (getFirstReadingDate_misc tz st mo).2.2.2.2.1
  · rw [h, (processReadings_misc readings _).1]
    exact (getFirstReadingDate_misc tz st mo).2.2.2.2.1

/-- C7 (amended): `get_historic_data` hands the `_fetch_data` result of
the computed window straight back to the caller and leaves the cached
`_data` unchanged; the last-value trackers, however, are owned by
`_fetch_data` and may still be updated by the call (see the
counterexample). -/
theorem C7_get_historic_data (meterId tz : Int) (optState : String)
    (mo : Option DateTime) (ro : FetchRequest → Option (List RawReading))
    (st : MeterState) (now : DateTime) (days : Int) :
    (getHistoricData meterId tz optState mo ro st now days).1
      = (fetchData meterId tz optState mo ro st
          (addDays { now with minute := 0, second := 0, millisecond := 0, tzMinutes := tz }
            (-days))
          { now with minute := 0, second := 0, millisecond := 0, tzMinutes := tz }).resp ∧
    (getHistoricData meterId tz optState mo ro st now days).2.data = st.data := by
  constructor
  · rfl
  · exact fetchData_data meterId tz optState mo ro st
      (addDays { now with minute := 0, second := 0, millisecond := 0, tzMinutes := tz } (-days))
      { now with minute := 0, second := 0, millisecond := 0, tzMinutes := tz }

/-- C7 counterexample: a `get_historic_data` call on a meter with empty
trackers, against a server returning one valid absolute reading, leaves
the last-reading tracker changed — the call is not free of instance
cache mutation. -/
theorem C7_tracker_mutation_counterexample :
    c7State.lastReading = none ∧ c7State.lastReadingDate = none ∧
    (getHistoricData 7 60 "OptIn" none mrOracle c7State wNow 1).2.lastReading = some 5 ∧
    (getHistoricData 7 60 "OptIn" none mrOracle c7State wNow 1).2.lastReadingDate
      = some 500 := by
  decide

theorem getFirstReadingDate_cached (tz : Int) (st : MeterState) (mo : Option DateTime)
    (d : DateTime) (h : st.firstReadingDate = some d) :
    getFirstReadingDate tz st mo = (some d, st, false) := by
  unfold getFirstReadingDate
  rw [h]

/-- C8 (amended): the first-reading-date slot, once resolved, is
returned from cache with no metadata query and is never cleared or
replaced by later fetches; the first-reading value slot behaves the same
way only while the cached value is non-zero — the code's truthiness test
treats a cached value of 0 as unresolved, re-issuing queries and
possibly replacing the slot (see the counterexample). -/
theorem C8_memoization (tz : Int) (st : MeterState) (mo : Option DateTime) (d : DateTime)
    (meterId : Int) (optState : String) (ro : FetchRequest → Option (List RawReading))
    (s e : DateTime) (fuel : Nat) (v : Int) :
    (st.firstReadingDate = some d → getFirstReadingDate tz st mo = (some d, st, false)) ∧
    (st.firstReadingDate = some d →
      (fetchData meterId tz optState mo ro st s e).state.firstReadingDate = some d) ∧
    ((fetchData meterId tz optState mo ro st s e).state.firstReading = st.firstReading) ∧
    (st.firstReading = some v → v ≠ 0 →
      getFirstReading fuel meterId tz optState mo ro st = (some (some v, st), [], false)) := by
  refine ⟨getFirstReadingDate_cached tz st mo d, ?_, ?_, ?_⟩
  · intro h
    rcases fetchData_state_cases meterId tz optState mo ro st s e with hc | hc | ⟨readings, hc⟩
    · rw [hc]
      exact h
    · rw [hc, getFirstReadingDate_cached tz st mo d h]
      exact h
    · rw [hc, (processReadings_misc readings _).2.2, getFirstReadingDate_cached tz st mo d h]
      exact h
  · rcases fetchData_state_cases meterId tz optState mo ro st s e with hc | hc | ⟨readings, hc⟩
    · rw [hc]
    · rw [hc]
      exact (getFirstReadingDate_misc tz st mo).2.2.2.2.2
    · rw [hc, (processReadings_misc readings _).2.1]
      exact (getFirstReadingDate_misc tz st mo).2.2.2.2.2
  · intro hv hnz
    unfold getFirstReading
    have ht : intTruthy st.firstReading = true := by
      rw [hv]
      simp [intTruthy, hnz]
    rw [if_pos ht, hv]

/-- Fixture: a meter whose first-reading slot holds the non-zero value 5
and whose first-reading date is cached. -/
def c8GoodState : MeterState :=
  ⟨none, some 5, some wFr, none, none, none, none⟩

theorem C8_memoization_witness :
    getFirstReadingDate 60 c8GoodState (some wMetaDate) = (some wFr, c8GoodState, false) ∧
    (fetchData 7 60 "OptIn" (some wMetaDate) mrOracle c8GoodState wStart wEnd).state.firstReadingDate
      = some wFr ∧
    getFirstReading 3 7 60 "OptIn" (some wMetaDate) mrOracle c8GoodState
      = (some (some 5, c8GoodState), [], false) := by
  have h := C8_memoization 60 c8GoodState (some wMetaDate) wFr 7 "OptIn" mrOracle
    wStart wEnd 3 5
  exact ⟨h.1 rfl, h.2.1 rfl, h.2.2.2 rfl (by decide)⟩

/-- C8 counterexample: a meter whose first-reading slot holds the
resolved value 0 — a later `get_first_reading` call issues fresh
`_fetch_data` queries (non-empty window trace) and replaces the slot
with the newly returned value 5, so the slot does not resolve exactly
once and can revert. -/
theorem C8_memoization_counterexample :
    c8State.firstReading = some 0 ∧
    (getFirstReading 3 7 60 "OptIn" none mrOracle c8State).2.1 ≠ [] ∧
    (getFirstReading 3 7 60 "OptIn" none mrOracle c8State).1
      = some (some 5, ⟨none, some 5, some wFr, none, none, some 500, some 5⟩) := by
  decide

theorem scanLoop_windows (meterId tz : Int) (optState : String) (mo : Option DateTime)
    (ro : FetchRequest → Option (List RawReading)) (fuel : Nat) :
    ∀ (st : MeterState) (s : DateTime),
      (scanLoop meterId tz optState mo ro fuel st s (addDays s 7)).2
        = (List.range (scanLoop meterId tz optState mo ro fuel st s (addDays s 7)).2.length).map
            (fun i => (iter7 s i, addDays (iter7 s i) 7)) := by
  induction fuel with
  | zero =>
    intro st s
    rfl
  | succ fuel ih =>
    intro st s
    rcases hf : fetchData meterId tz optState mo ro st s (addDays s 7) with ⟨resp, st1, reqs, mq⟩
    cases resp with
    | none =>
      have hL : (scanLoop meterId tz optState mo ro (fuel + 1) st s (addDays s 7)).2
          = [(s, addDays s 7)] := by
        simp [scanLoop, hf]
      rw [hL]
      rfl
    | some resp =>
      by_cases hemp : resp.isEmpty
      · rcases hs : scanLoop meterId tz optState mo ro fuel st1 (addDays s 7)
            (addDays (addDays s 7) 7) with ⟨out, ws⟩
        have ih1 := ih st1 (addDays s 7)
        rw [hs] at ih1
        have hL : (scanLoop meterId tz optState mo ro (fuel + 1) st s (addDays s 7)).2
            = (s, addDays s 7) :: ws := by
          simp [scanLoop, hf, hemp, hs]
        rw [hL]
        simp only [List.length_cons, List.range_succ_eq_map, List.map_cons, List.map_map]
        exact congrArg (List.cons (s, addDays s 7)) (ih1.trans rfl)
      · have hL : (scanLoop meterId tz optState mo ro (fuel + 1) st s (addDays s 7)).2
            = [(s, addDays s 7)] := by
          simp [scanLoop, hf, hemp]
        rw [hL]
        rfl

theorem scanLoop_found (meterId tz : Int) (optState : String) (mo : Option DateTime)
    (ro : FetchRequest → Option (List RawReading)) (fuel : Nat) :
    ∀ (st : MeterState) (s e : DateTime) (resp : List EnrichedReading)
      (st2 : MeterState) (ws : List (DateTime × DateTime)),
      scanLoop meterId tz optState mo ro fuel st s e = (some (some resp, st2), ws) →
      resp ≠ [] := by
  induction fuel with
  | zero =>
    intro st s e resp st2 ws h
    exact absurd h (by simp [scanLoop])
  | succ fuel ih =>
    intro st s e resp st2 ws h
    rcases hf : fetchData meterId tz optState mo ro st s e with ⟨r0, st1, reqs, mq⟩
    cases r0 with
    | none =>
      simp only [scanLoop, hf] at h
      simp at h
    | some r1 =>
      by_cases hemp : r1.isEmpty
      · rcases hs : scanLoop meterId tz optState mo ro fuel st1 (addDays s 7)
            (addDays (addDays s 7) 7) with ⟨out, ws1⟩
        have hstep : scanLoop meterId tz optState mo ro (fuel + 1) st s e
            = (out, (s, e) :: ws1) := by
          simp [scanLoop, hf, hemp, hs]
        rw [hstep, Prod.mk.injEq] at h
        rw [h.1] at hs
        exact ih st1 (addDays s 7) (addDays (addDays s 7) 7) resp st2 ws1 hs
      · have hstep : scanLoop meterId tz optState mo ro (fuel + 1) st s e
            = (some (some r1, st1), [(s, e)]) := by
          simp [scanLoop, hf, hemp]
        rw [hstep, Prod.mk.injEq] at h
        have h1 := h.1
        simp only [Option.some.injEq, Prod.mk.injEq] at h1
        intro hcon
        rw [h1.1.trans hcon] at hemp
        simp at hemp

theorem processReadings_est (st : MeterState) :
    processReadings st [estRecord] = (st, []) := by
  have h : buildMapping estRecord.readingValues = [] := rfl
  have hpr : processReading st estRecord = (st, none) := by
    simp [processReading, h]
  simp [processReadings, hpr]

theorem getFirstReadingDate_someMeta (tz : Int) (st : MeterState) (d0 : DateTime) :
    ∃ d st1 mq, getFirstReadingDate tz st (some d0) = (some d, st1, mq) := by
  cases hfd : st.firstReadingDate with
  | some d =>
    exact ⟨d, st, false, by unfold getFirstReadingDate; rw [hfd]⟩
  | none =>
    exact ⟨{ d0 with minute := 0, tzMinutes := tz },
      { st with firstReadingDate := some { d0 with minute := 0, tzMinutes := tz } },
      true, by unfold getFirstReadingDate; rw [hfd]⟩

theorem fetchData_optIn_est (meterId tz : Int) (d0 : DateTime) (st : MeterState)
    (s e : DateTime) :
    (fetchData meterId tz "OptIn" (some d0) estOracle st s e).resp = some [] := by
  unfold fetchData
  rw [if_neg (by decide), if_pos rfl]
  obtain ⟨d, st1, mq, hg⟩ := getFirstReadingDate_someMeta tz st d0
  unfold fetchDataCore
  rw [hg]
  dsimp only
  simp [estOracle, processReadings_est st1]

theorem scanLoop_est_unbounded (meterId tz : Int) (d0 : DateTime) (fuel : Nat) :
    ∀ (st : MeterState) (s e : DateTime),
      (scanLoop meterId tz "OptIn" (some d0) estOracle fuel st s e).1 = none := by
  induction fuel with
  | zero =>
    intro st s e
    rfl
  | succ fuel ih =>
    intro st s e
    rcases hf : fetchData meterId tz "OptIn" (some d0) estOracle st s e with ⟨r0, st1, reqs, mq⟩
    have hr : r0 = some [] := by
      have h2 := fetchData_optIn_est meterId tz d0 st s e
      rw [hf] at h2
      exact h2
    subst hr
    rcases hs : scanLoop meterId tz "OptIn" (some d0) estOracle fuel st1 (addDays s 7)
        (addDays (addDays s 7) 7) with ⟨out, ws⟩
    have hout : out = none := by
      have h3 := ih st1 (addDays s 7) (addDays (addDays s 7) 7)
      rw [hs] at h3
      exact h3
    simp [scanLoop, hf, hs, hout]

/-- C9: on a cache miss `get_first_reading` scans forward from the
resolved first-reading date in 7-day windows — the i-th `_fetch_data`
call covers exactly days `7i` to `7(i+1)` after that date; the loop has
no upper bound (against a server that keeps answering with
only-estimated records, i.e. empty but non-`None` results, it runs out
of any fuel); it stops at the first non-empty result, inspects only the
first record in server order, returns nothing when that record has no
"MR" value, and otherwise caches and returns it. -/
theorem C9_first_reading_scan (meterId tz : Int) (optState : String)
    (mo : Option DateTime) (ro : FetchRequest → Option (List RawReading))
    (st st1 st2 : MeterState) (d : DateTime) (mq : Bool) (fuel : Nat)
    (resp : List EnrichedReading) (ws : List (DateTime × DateTime))
    (first : EnrichedReading) (d0 : DateTime) (s e : DateTime) :
    ((scanLoop meterId tz optState mo ro fuel st s (addDays s 7)).2
      = (List.range (scanLoop meterId tz optState mo ro fuel st s (addDays s 7)).2.length).map
          (fun i => (iter7 s i, addDays (iter7 s i) 7))) ∧
    ((scanLoop meterId tz "OptIn" (some d0) estOracle fuel st s e).1 = none) ∧
    (scanLoop meterId tz optState mo ro fuel st s e = (some (some resp, st2), ws) →
      resp ≠ []) ∧
    (st.firstReading = none →
      getFirstReadingDate tz st mo = (some d, st1, mq) →
      scanLoop meterId tz optState mo ro fuel st1 d (addDays d 7)
        = (some (some resp, st2), ws) →
      resp.head? = some first →
      ((dictGet first.mapping "MR" = none →
        getFirstReading fuel meterId tz optState mo ro st = (some (none, st2), ws, mq)) ∧
       (∀ v, dictGet first.mapping "MR" = some v →
        getFirstReading fuel meterId tz optState mo ro st
          = (some (some v, { st2 with firstReading := some v }), ws, mq)))) := by
  refine ⟨scanLoop_windows meterId tz optState mo ro fuel st s,
    scanLoop_est_unbounded meterId tz d0 fuel st s e,
    scanLoop_found meterId tz optState mo ro fuel st s e resp st2 ws, ?_⟩
  intro h0 hg hs hh
  have ht : intTruthy st.firstReading = false := by
    rw [h0]
    rfl
  constructor
  · intro hmr
    simp only [getFirstReading, ht, Bool.false_eq_true, if_false, hg, hs, hh, hmr]
  · intro v hmr
    simp only [getFirstReading, ht, Bool.false_eq_true, if_false, hg, hs, hh, hmr]

/-- Fixture: the enriched record produced from `mrOracle`'s answer. -/
def c9Enriched : EnrichedReading :=
  ⟨[("MR", 5)], 500, [⟨"MR", 5, "Valid"⟩]⟩

/-- Fixture: the meter state after the scan's single `_fetch_data`. -/
def c9Mid : MeterState :=
  ⟨none, none, some wFr, none, none, some 500, some 5⟩

/-- Fixture: the meter state after the value 5 is cached. -/
def c9Final : MeterState :=
  ⟨none, some 5, some wFr, none, none, some 500, some 5⟩

theorem C9_first_reading_scan_witness :
    getFirstReading 3 7 60 "OptIn" none mrOracle c7State
      = (some (some 5, c9Final), [(wFr, addDays wFr 7)], false) ∧
    [c9Enriched] ≠ ([] : List EnrichedReading) := by
  have h := C9_first_reading_scan 7 60 "OptIn" none mrOracle c7State c7State c9Mid wFr
    false 3 [c9Enriched] [(wFr, addDays wFr 7)] c9Enriched wMetaDate wFr (addDays wFr 7)
  constructor
  · have h4 := (h.2.2.2 rfl (by decide) (by decide) rfl).2 5 (by decide)
    exact h4.trans (by decide)
  · exact h.2.2.1 (by decide)

theorem buildMeters_nonzero_aux (l : List MeterPointRecord) :
    ∀ m : List (Int × MeterPointRecord),
      (∀ q ∈ m, q.1 ≠ 0) →
      ∀ q ∈ l.foldl
          (fun m mp =>
            match mp.meterPointID with
            | none => m
            | some mid => if mid = 0 then m else dictInsert m mid mp)
          m,
        q.1 ≠ 0 := by
  induction l with
  | nil =>
    intro m hm q hq
    exact hm q hq
  | cons mp l ih =>
    intro m hm q hq
    rw [List.foldl_cons] at hq
    refine ih _ ?_ q hq
    intro q2 hq2
    cases hid : mp.meterPointID with
    | none =>
      simp only [hid] at hq2
      exact hm q2 hq2
    | some mid =>
      simp only [hid] at hq2
      by_cases hz : mid = 0
      · rw [if_pos hz] at hq2
        exact hm q2 hq2
      · rw [if_neg hz] at hq2
        rcases mem_dictInsert m mid mp q2 hq2 with h | h
        · exact hm q2 h
        · rw [h]
          exact hz

theorem buildMeters_nonzero (mps : List MeterPointRecord) :
    ∀ q ∈ buildMeters mps, q.1 ≠ 0 := by
  intro q hq
  exact buildMeters_nonzero_aux mps [] (by simp) q hq

theorem updateInfo_nonzero_aux (records : List InstallationRecord) :
    ∀ insts : List (Int × Installation),
      (∀ p ∈ insts, p.1 ≠ 0 ∧ ∀ q ∈ p.2.meters, q.1 ≠ 0) →
      ∀ p ∈ records.foldl
          (fun m ir =>
            match ir.installationID with
            | none => m
            | some iid =>
              if iid = 0 then m
              else dictInsert m iid ⟨iid, buildMeters ir.meterPoints⟩)
          insts,
        p.1 ≠ 0 ∧ ∀ q ∈ p.2.meters, q.1 ≠ 0 := by
  induction records with
  | nil =>
    intro insts hm p hp
    exact hm p hp
  | cons ir records ih =>
    intro insts hm p hp
    rw [List.foldl_cons] at hp
    refine ih _ ?_ p hp
    intro p2 hp2
    cases hid : ir.installationID with
    | none =>
      simp only [hid] at hp2
      exact hm p2 hp2
    | some iid =>
      simp only [hid] at hp2
      by_cases hz : iid = 0
      · rw [if_pos hz] at hp2
        exact hm p2 hp2
      · rw [if_neg hz] at hp2
        rcases mem_dictInsert insts iid ⟨iid, buildMeters ir.meterPoints⟩ p2 hp2 with h | h
        · exact hm p2 h
        · rw [h]
          exact ⟨hz, buildMeters_nonzero ir.meterPoints⟩

theorem dictGet_zero_eq_none {α : Type} (m : List (Int × α))
    (h : ∀ p ∈ m, p.1 ≠ 0) : dictGet m 0 = none := by
  have hfind : m.find? (fun p => decide (p.1 = 0)) = none :=
    List.find?_eq_none.2 (fun p hp => by simpa using h p hp)
  simp [dictGet, hfind]

/-- C10: `update_info` skips installation records with a falsy
`installationID` (absent/None or 0), and the Installation constructor
skips `meterPoints` entries with a falsy `meterPointID` the same way;
consequently, starting from any well-formed state, every key of the
installations mapping and of every meters mapping is non-zero and the
id 0 can never be stored or looked up. -/
theorem C10_falsy_id_skipping (insts : List (Int × Installation))
    (res : Option (List InstallationRecord)) (mps : List MeterPointRecord)
    (rest : List InstallationRecord) :
    (updateInfo insts (some (⟨none, mps⟩ :: rest)) = updateInfo insts (some rest)) ∧
    (updateInfo insts (some (⟨some 0, mps⟩ :: rest)) = updateInfo insts (some rest)) ∧
    (buildMeters (⟨none⟩ :: mps) = buildMeters mps) ∧
    (buildMeters (⟨some 0⟩ :: mps) = buildMeters mps) ∧
    ((∀ p ∈ insts, p.1 ≠ 0 ∧ ∀ q ∈ p.2.meters, q.1 ≠ 0) →
      ((∀ p ∈ updateInfo insts res, p.1 ≠ 0 ∧ ∀ q ∈ p.2.meters, q.1 ≠ 0) ∧
       dictGet (updateInfo insts res) 0 = none)) ∧
    (∀ q ∈ buildMeters mps, q.1 ≠ 0) ∧
    (dictGet (buildMeters mps) 0 = none) := by
  refine ⟨by simp [updateInfo], by simp [updateInfo], by simp [buildMeters],
    by simp [buildMeters], ?_, buildMeters_nonzero mps,
    dictGet_zero_eq_none _ (buildMeters_nonzero mps)⟩
  intro h1
  have hall : ∀ p ∈ updateInfo insts res, p.1 ≠ 0 ∧ ∀ q ∈ p.2.meters, q.1 ≠ 0 := by
    cases res with
    | none => exact h1
    | some records =>
      intro p hp
      exact updateInfo_nonzero_aux records insts h1 p hp
  exact ⟨hall, dictGet_zero_eq_none _ (fun p hp => (hall p hp).1)⟩

/-- Fixture: a `getInstallations` response with one well-formed record
(holding one valid meter point, one zero meter point, one without id),
one record with installation id 0, and one without an id. -/
def wRecords : List InstallationRecord :=
  [⟨some 2, [⟨some 3⟩, ⟨some 0⟩, ⟨none⟩]⟩, ⟨some 0, []⟩, ⟨none, []⟩]

theorem C10_falsy_id_skipping_witness :
    ((∀ p ∈ updateInfo [] (some wRecords), p.1 ≠ 0 ∧ ∀ q ∈ p.2.meters, q.1 ≠ 0) ∧
      dictGet (updateInfo [] (some wRecords)) 0 = none) ∧
    ((3 : Int), MeterPointRecord.mk (some 3)).1 ≠ 0 := by
  constructor
  · exact (C10_falsy_id_skipping [] (some wRecords) [] []).2.2.2.2.1 (by simp)
  · exact (C10_falsy_id_skipping [] (some wRecords) [⟨some 3⟩, ⟨some 0⟩, ⟨none⟩] []).2.2.2.2.2.1
      ((3 : Int), MeterPointRecord.mk (some 3)) (by decide)

end SNGraz
